import Mathlib

/-!
Formal model of the batch image transcoding tools of this repository
(`delta_pix.py`, `pyqt_convert_png_to_webp.py`, `convert_png_to_jpg.py`).

Modelling conventions:
* A decoded PIL image is reduced to the data the conversion logic inspects:
  width, height and color mode.  `Image.convert` and `Image.resize` are the
  evident operations on that record.
* Python float arithmetic in `_apply_resize` is modelled by exact rationals;
  `int()` applied to a nonnegative value is the floor.
* The filesystem touched by the in-place converter is an association list
  from paths to file contents (contents abstracted as natural numbers).
* Fallible external steps (PIL decode/convert/resize/encode) are modelled by
  oracles returning `Option String`: `some msg` means the step raises an
  exception carrying `msg`, `none` means it succeeds and performs its
  documented effect.
-/

/-- PIL color modes relevant to these tools. -/
inductive ColorMode
  | RGB | RGBA | LA | L | P | other
deriving DecidableEq, Repr

/-- Whether a color mode carries an alpha channel. -/
def ColorMode.hasAlpha : ColorMode → Bool
  | .RGBA => true
  | .LA => true
  | _ => false

/-- A decoded in-memory image: the data the conversion logic inspects. -/
structure PILImage where
  width : ℕ
  height : ℕ
  mode : ColorMode
deriving DecidableEq, Repr

/-- Model of `Image.convert(mode)`: same dimensions, new color mode. -/
def PILImage.convert (img : PILImage) (m : ColorMode) : PILImage :=
  { img with mode := m }

/-- Model of `Image.resize((w, h))`: same mode, new dimensions. -/
def PILImage.resize (img : PILImage) (sz : ℕ × ℕ) : PILImage :=
  { img with width := sz.1, height := sz.2 }

/-- Target formats of `delta_pix.py` (`ExportSettings.formats`). -/
inductive Fmt
  | PNG | JPEG | WEBP
deriving DecidableEq, Repr

/-- The `ExportSettings` dataclass of delta_pix.py (lines 194-204). -/
structure ExportSettings where
  formats : List Fmt
  resize_percent : ℕ
  png_optimize : Bool
  jpg_quality : ℕ
  webp_lossless : Bool
  webp_quality : ℕ
  drop_alpha : Bool
  max_width : ℕ
  max_height : ℕ
deriving DecidableEq, Repr

/-- The percentage step of `DeltaPix._apply_resize` (delta_pix.py 567-571):
if `pct ≠ 100`, each axis is scaled by `pct/100`, floored, and clamped to a
minimum of 1 px. -/
def apply_percent (w h pct : ℕ) : ℕ × ℕ :=
  if pct ≠ 100 then (max 1 (w * pct / 100), max 1 (h * pct / 100)) else (w, h)

/-- The `scale` accumulated by the two `if` statements of
`DeltaPix._apply_resize` (delta_pix.py 575-579), starting from `1.0`.
Python's float `scale` is modelled by an exact rational. -/
def clampScale (w h maxW maxH : ℕ) : ℚ :=
  let s1 : ℚ := if maxW > 0 ∧ w > maxW then min 1 ((maxW : ℚ) / (w : ℚ)) else 1
  if maxH > 0 ∧ h > maxH then min s1 ((maxH : ℚ) / (h : ℚ)) else s1

/-- The max-bounds step of `DeltaPix._apply_resize` (delta_pix.py 573-583):
a single uniform downscale-only clamp to the `max_w`/`max_h` bounding box. -/
def apply_max_clamp (w h maxW maxH : ℕ) : ℕ × ℕ :=
  if maxW > 0 ∨ maxH > 0 then
    if clampScale w h maxW maxH < 1 then
      ((⌊(w : ℚ) * clampScale w h maxW maxH⌋).toNat,
       (⌊(h : ℚ) * clampScale w h maxW maxH⌋).toNat)
    else (w, h)
  else (w, h)

/-- Dimension computation of `DeltaPix._apply_resize` (delta_pix.py 566-584),
transcribed as one function mirroring the Python control flow. -/
def apply_resize (w h pct maxW maxH : ℕ) : ℕ × ℕ :=
  let wh := if pct ≠ 100 then (max 1 (w * pct / 100), max 1 (h * pct / 100)) else (w, h)
  if maxW > 0 ∨ maxH > 0 then
    if clampScale wh.1 wh.2 maxW maxH < 1 then
      ((⌊(wh.1 : ℚ) * clampScale wh.1 wh.2 maxW maxH⌋).toNat,
       (⌊(wh.2 : ℚ) * clampScale wh.1 wh.2 maxW maxH⌋).toNat)
    else wh
  else wh

/-- Transform `DeltaPix._apply_resize` lifted to images: the image is resampled to the
computed dimensions (resampling filter fixed to Lanczos in the source). -/
def apply_resize_img (img : PILImage) (pct maxW maxH : ℕ) : PILImage :=
  img.resize (apply_resize img.width img.height pct maxW maxH)

example : apply_resize 100 60 50 40 0 = (40, 24) := by
  norm_num [apply_resize, clampScale]
  decide

example : apply_percent 100 60 50 = (50, 30) := by decide

/-- Encoder parameters resolved from `ExportSettings` for one format
(the `kwargs` built in `DeltaPix._save_one`, delta_pix.py 593-604). -/
inductive SaveParams
  | png (optimize : Bool)
  | jpeg (quality : ℕ)
  | webpLossless (method : ℕ)
  | webpLossy (quality method : ℕ)
deriving DecidableEq, Repr

/-- The `kwargs` computation of `DeltaPix._save_one` (delta_pix.py 593-604). -/
def save_params (fmt : Fmt) (cfg : ExportSettings) : SaveParams :=
  match fmt with
  | Fmt.PNG => SaveParams.png cfg.png_optimize
  | Fmt.JPEG => SaveParams.jpeg cfg.jpg_quality
  | Fmt.WEBP =>
    if cfg.webp_lossless then SaveParams.webpLossless 6
    else SaveParams.webpLossy cfg.webp_quality 6

/-- Failure oracles for the external PIL calls made by `DeltaPix._save_one`:
`some msg` means that call raises an exception carrying `msg`; `none` means
it succeeds with its documented effect. -/
structure SaveEnv where
  convertErr : PILImage → ColorMode → Option String
  resizeErr : PILImage → ℕ × ℕ → Option String
  saveErr : PILImage → Fmt → SaveParams → Option String

/-- A fallible `Image.convert` call. -/
def convertE (env : SaveEnv) (im : PILImage) (m : ColorMode) : Except String PILImage :=
  match env.convertErr im m with
  | some msg => Except.error msg
  | none => Except.ok (im.convert m)

/-- A fallible `Image.resize` call. -/
def resizeE (env : SaveEnv) (im : PILImage) (sz : ℕ × ℕ) : Except String PILImage :=
  match env.resizeErr im sz with
  | some msg => Except.error msg
  | none => Except.ok (im.resize sz)

/-- Transform `DeltaPix._apply_resize` (delta_pix.py 566-584) with its up to two
`Image.resize` calls made fallible. -/
def apply_resizeE (env : SaveEnv) (img : PILImage) (pct maxW maxH : ℕ) :
    Except String PILImage :=
  match (if pct ≠ 100 then
      resizeE env img (max 1 (img.width * pct / 100), max 1 (img.height * pct / 100))
    else Except.ok img) with
  | Except.error msg => Except.error msg
  | Except.ok im =>
    if maxW > 0 ∨ maxH > 0 then
      if clampScale im.width im.height maxW maxH < 1 then
        resizeE env im ((⌊(im.width : ℚ) * clampScale im.width im.height maxW maxH⌋).toNat,
          (⌊(im.height : ℚ) * clampScale im.width im.height maxW maxH⌋).toNat)
      else Except.ok im
    else Except.ok im

/-- The image produced by the pre-encode steps of `DeltaPix._save_one`
(delta_pix.py 588-591) when no step raises: RGB conversion for
`drop_alpha` or JPEG, then the resize transform. -/
def save_one_encoded (img : PILImage) (fmt : Fmt) (cfg : ExportSettings) : PILImage :=
  let im := if cfg.drop_alpha || fmt == Fmt.JPEG then img.convert ColorMode.RGB else img
  apply_resize_img im cfg.resize_percent cfg.max_width cfg.max_height

/-- The pre-encode steps of `DeltaPix._save_one` (delta_pix.py 588-591) with
each PIL call fallible: returns the image handed to `im.save`. -/
def save_one_prepared (env : SaveEnv) (img : PILImage) (fmt : Fmt) (cfg : ExportSettings) :
    Except String PILImage :=
  match (if cfg.drop_alpha || fmt == Fmt.JPEG then convertE env img ColorMode.RGB
    else Except.ok img) with
  | Except.error msg => Except.error msg
  | Except.ok im => apply_resizeE env im cfg.resize_percent cfg.max_width cfg.max_height

/-- The whole `try:` body of `DeltaPix._save_one` (delta_pix.py 587-607):
pre-encode steps, then the `im.save` call (encode + write). -/
def save_one_pipeline (env : SaveEnv) (img : PILImage) (fmt : Fmt) (cfg : ExportSettings) :
    Except String Unit :=
  match save_one_prepared env img fmt cfg with
  | Except.error msg => Except.error msg
  | Except.ok im =>
    match env.saveErr im fmt (save_params fmt cfg) with
    | some msg => Except.error msg
    | none => Except.ok ()

/-- Function `DeltaPix._save_one` (delta_pix.py 586-609): the `try/except` wrapper
returning `(True, "ok")` on success and `(False, str(e))` on any exception. -/
def save_one (env : SaveEnv) (img : PILImage) (fmt : Fmt) (cfg : ExportSettings) :
    Bool × String :=
  match save_one_pipeline env img fmt cfg with
  | Except.ok _ => (true, "ok")
  | Except.error msg => (false, msg)

/-- Display name of a format, as Python interpolates it into error lines. -/
def fmtName : Fmt → String
  | Fmt.PNG => "PNG"
  | Fmt.JPEG => "JPEG"
  | Fmt.WEBP => "WEBP"

/-- The inner `for fmt in cfg.formats` loop of `DeltaPix._export_batch`
(delta_pix.py 619-624): error lines collected for one decoded source. -/
def format_errors (env : SaveEnv) (img : PILImage) (path : String) (cfg : ExportSettings) :
    List Fmt → List String
  | [] => []
  | fmt :: rest =>
    (match save_one env img fmt cfg with
     | (true, _) => []
     | (false, msg) => [path ++ " → " ++ fmtName fmt ++ ": " ++ msg]) ++
      format_errors env img path cfg rest

/-- Function `DeltaPix._export_batch` (delta_pix.py 611-628): per source, one
`load_image` call (`decode path = none` models a failed decode, appending a
single `Open failed` line and skipping every format); otherwise the
per-format loop runs `_save_one` and collects its failures.  Returns the
accumulated `errors` list. -/
def export_batch (env : SaveEnv) (decode : String → Option PILImage)
    (cfg : ExportSettings) : List String → List String
  | [] => []
  | path :: rest =>
    (match decode path with
     | none => ["Open failed: " ++ path]
     | some img => format_errors env img path cfg cfg.formats) ++
      export_batch env decode cfg rest

/-- The result of `img.save(output_path, "JPEG", quality=quality)` in
convert_png_to_jpg.py: the encoded image and the quality used. -/
structure SavedJpeg where
  image : PILImage
  quality : ℕ
deriving DecidableEq, Repr

/-- Function `resize_and_convert` of convert_png_to_jpg.py (lines 6-12): convert to
RGB, resize to `size` with Lanczos, save as JPEG at `quality`. -/
def resize_and_convert (img : PILImage) (size : ℕ × ℕ) (quality : ℕ) : SavedJpeg :=
  { image := (img.convert ColorMode.RGB).resize size, quality := quality }

/-- The call `resize_and_convert(backup_path, output_path)` made by `main`
(convert_png_to_jpg.py line 45), which leaves `size` and `quality` at their
defaults `(1024, 1024)` and `90`. -/
def resize_and_convert_main (img : PILImage) : SavedJpeg :=
  resize_and_convert img (1024, 1024) 90

/-- The filesystem seen by the in-place converter: an association list from
paths to file contents (contents abstracted as naturals). -/
abbrev FS := List (String × ℕ)

/-- Contents stored at a path, if the file exists. -/
def FS.lookup : FS → String → Option ℕ
  | [], _ => none
  | (p, v) :: rest, q => if p = q then some v else FS.lookup rest q

/-- Model of `os.path.exists`. -/
def FS.pathExists (fs : FS) (p : String) : Bool := (FS.lookup fs p).isSome

/-- Drop every entry stored at the given path. -/
def FS.erase : FS → String → FS
  | [], _ => []
  | (p, v) :: rest, q => if p = q then FS.erase rest q else (p, v) :: FS.erase rest q

/-- Write contents to a path (creating or overwriting the file). -/
def FS.write (fs : FS) (p : String) (v : ℕ) : FS := (p, v) :: FS.erase fs p

/-- Model of `os.remove`. -/
def FS.removeFile (fs : FS) (p : String) : FS := FS.erase fs p

/-- Model of `shutil.move`: relocate the file at `src` to `dst` (identity if `src`
does not exist; the caller models the raised exception in that case). -/
def FS.move (fs : FS) (src dst : String) : FS :=
  match FS.lookup fs src with
  | some v => FS.write (FS.erase fs src) dst v
  | none => fs

/-- The `JobConfig` dataclass of pyqt_convert_png_to_webp.py (lines 16-21). -/
structure JobConfig where
  folder : String
  keep_backup : Bool
  overwrite : Bool
  no_alpha : Bool
deriving DecidableEq, Repr

/-- Observable events emitted by `ConverterWorker.run`: the `log`,
`progress`, `done` and `error` signals, plus a marker recording each
`Image.open` performed on a source file by `_convert_one`. -/
inductive Event
  | log (line : String)
  | progress (pct : ℕ)
  | decodeOpen (path : String)
  | doneSignal (count : ℕ)
  | errorSignal (msg : String)
deriving DecidableEq, Repr

/-- Path `os.path.join(folder, fname)` for a listed source `<stem>.png`. -/
def srcPath (cfg : JobConfig) (stem : String) : String :=
  cfg.folder ++ "/" ++ stem ++ ".png"

/-- Path `os.path.join(folder, dst_name)` for target `<stem>.webp` (line 85-86). -/
def dstPath (cfg : JobConfig) (stem : String) : String :=
  cfg.folder ++ "/" ++ stem ++ ".webp"

/-- Path `os.path.join(backup_folder, fname)` (line 96). -/
def bakPath (backupFolder stem : String) : String :=
  backupFolder ++ "/" ++ stem ++ ".png"

/-- Bytes produced by `_convert_one` for a source with the given contents;
the encoding itself is abstracted to an injection tagged by the lossy/
lossless mode chosen from `no_alpha` (lines 39-51). -/
def encodeWebp (noAlpha : Bool) (c : ℕ) : ℕ :=
  if noAlpha then 2 * c else 2 * c + 1

/-- The `try:` body of the per-item loop from `_convert_one` onwards
(pyqt_convert_png_to_webp.py 103-114), plus the post-conversion delete of
the original (107-111).  `convertFail c = some msg` models `_convert_one`
raising on a source whose contents are `c`; a missing source makes
`Image.open` raise.  Returns (filesystem, events, converted?). -/
def convertStep (cfg : JobConfig) (fs : FS) (srcForConvert src dst stem : String)
    (convertFail : ℕ → Option String) (i total : ℕ) : FS × List Event × Bool :=
  let pr := Event.progress (i * 100 / total)
  match FS.lookup fs srcForConvert with
  | none =>
    (fs, [Event.decodeOpen srcForConvert,
          Event.log ("Failed: " ++ stem ++ ".png -> No such file or directory"), pr], false)
  | some c =>
    match convertFail c with
    | some msg =>
      (fs, [Event.decodeOpen srcForConvert,
            Event.log ("Failed: " ++ stem ++ ".png -> " ++ msg), pr], false)
    | none =>
      let fs1 := FS.write fs dst (encodeWebp cfg.no_alpha c)
      let fs2 := if cfg.keep_backup = false ∧ FS.pathExists fs1 src = true
        then FS.removeFile fs1 src else fs1
      (fs2, [Event.decodeOpen srcForConvert,
             Event.log ("Converted: " ++ stem ++ ".png → " ++ stem ++ ".webp"), pr], true)

/-- One iteration of the `for i, fname in enumerate(pngs, start=1)` loop of
`ConverterWorker.run` (pyqt_convert_png_to_webp.py 84-116): skip-if-exists
check, optional move of the original into the backup folder, then the
conversion attempt. -/
def processItem (cfg : JobConfig) (backupFolder : String) (convertFail : ℕ → Option String)
    (fs : FS) (stem : String) (i total : ℕ) : FS × List Event × Bool :=
  let src := srcPath cfg stem
  let dst := dstPath cfg stem
  if cfg.overwrite = false ∧ FS.pathExists fs dst = true then
    (fs, [Event.log ("Skip (already exists): " ++ stem ++ ".webp"),
          Event.progress (i * 100 / total)], false)
  else
    let bak := bakPath backupFolder stem
    if cfg.keep_backup = true then
      if FS.pathExists fs bak = true then
        convertStep cfg fs bak src dst stem convertFail i total
      else
        match FS.lookup fs src with
        | none =>
          (fs, [Event.log ("Failed: " ++ stem ++ ".png -> No such file or directory"),
                Event.progress (i * 100 / total)], false)
        | some _ =>
          convertStep cfg (FS.move fs src bak) bak src dst stem convertFail i total
    else convertStep cfg fs src src dst stem convertFail i total

/-- The item loop of `ConverterWorker.run` (pyqt_convert_png_to_webp.py
79-116).  `stopped i` is the value of the `self._stopped` flag observed at
the check performed before starting item number `i` (1-based); the loop
breaks there, so an item already under way always runs to completion.
Accumulates (filesystem, events, converted count). -/
def runLoop (cfg : JobConfig) (backupFolder : String) (convertFail : ℕ → Option String)
    (stopped : ℕ → Bool) (total : ℕ) :
    FS → List String → ℕ → ℕ → FS × List Event × ℕ
  | fs, [], _, conv => (fs, [], conv)
  | fs, stem :: rest, i, conv =>
    if stopped i then (fs, [Event.log ("Stopped by user.")], conv)
    else
      let r := processItem cfg backupFolder convertFail fs stem i total
      let r2 := runLoop cfg backupFolder convertFail stopped total r.1 rest (i + 1)
        (conv + if r.2.2 then 1 else 0)
      (r2.1, r.2.1 ++ r2.2.1, r2.2.2)

/-- Function `ConverterWorker.run` (pyqt_convert_png_to_webp.py 53-120) after the
folder sanity check: `stems` are the base names of the listed `.png` files,
`backupFolder` the sibling `<folder>_PNG` directory path.  Emits the mode
log, the empty-folder short-circuit, the item loop, and the final `done`
signal carrying the converted count. -/
def runWorker (cfg : JobConfig) (backupFolder : String) (convertFail : ℕ → Option String)
    (stopped : ℕ → Bool) (fs : FS) (stems : List String) : FS × List Event :=
  let total := stems.length
  if total = 0 then
    (fs, [Event.log ("No PNG files found in the selected folder."), Event.doneSignal 0])
  else
    let modeText := if cfg.no_alpha then ("LOSSY (no transparency, q=90)")
      else ("LOSSLESS (preserve transparency)")
    let header := Event.log ("Mode: " ++ modeText) ::
      (if cfg.keep_backup then [Event.log ("Backup folder: " ++ backupFolder)] else [])
    let r := runLoop cfg backupFolder convertFail stopped total fs stems 1 0
    (r.1, header ++ r.2.1 ++ [Event.doneSignal r.2.2])

/-- Whether an event is a `progress` emission; each loop iteration that is
not cut off by the stop flag emits exactly one. -/
def isProgress : Event → Bool
  | Event.progress _ => true
  | _ => false

/-- Whether an event trace ends with the `done` signal. -/
def endsWithDone (evs : List Event) : Bool :=
  match evs.getLast? with
  | some (Event.doneSignal _) => true
  | _ => false

/-! Concrete fixtures used to instantiate the theorems below. -/

/-- A `SaveEnv` in which no PIL call fails. -/
def okEnv : SaveEnv := ⟨fun _ _ => none, fun _ _ => none, fun _ _ _ => none⟩

/-- A decoder for which every source fails to decode. -/
def badDecode : String → Option PILImage := fun _ => none

/-- Export settings requesting formats `{PNG, JPEG}` with no resizing. -/
def pngJpegSettings : ExportSettings :=
  ⟨[Fmt.PNG, Fmt.JPEG], 100, true, 90, false, 90, false, 0, 0⟩

/-- A small RGBA image. -/
def rgbaImg : PILImage := ⟨2, 2, ColorMode.RGBA⟩

/-- In-place config: `keep_backup=False`, `overwrite=True`. -/
def cfgNoBackup : JobConfig := ⟨"f", false, true, false⟩

/-- In-place config: `keep_backup=True`, `overwrite=True`. -/
def cfgBackup : JobConfig := ⟨"f", true, true, false⟩

/-- In-place config: `keep_backup=True`, `overwrite=False`. -/
def cfgSkip : JobConfig := ⟨"f", true, false, false⟩

/-- Oracle: `_convert_one` raising on every source. -/
def failBoom : ℕ → Option String := fun _ => some ("boom")

/-- Oracle: `_convert_one` succeeding on every source. -/
def noFail : ℕ → Option String := fun _ => none

/-- A stop flag that is never set. -/
def stopNever : ℕ → Bool := fun _ => false

/-- A stop flag observed set from the check before item 2 onwards. -/
def stopFromTwo : ℕ → Bool := fun i => decide (2 ≤ i)

/-- Folder `f` containing only `a.png`. -/
def fsA : FS := [("f/a.png", 7)]

/-- Folder `f` containing `a.png`, with `f_PNG/a.png` already in the backup. -/
def fsABak : FS := [("f/a.png", 7), ("f_PNG/a.png", 5)]

/-- Folder `f` containing `a.png` and an already-existing `a.webp`. -/
def fsAWebp : FS := [("f/a.png", 7), ("f/a.webp", 9)]

/-! Helper lemmas about the filesystem model. -/

theorem lookup_erase_self : ∀ (fs : FS) (p : String), FS.lookup (FS.erase fs p) p = none
  | [], _ => rfl
  | (q, v) :: rest, p => by
    by_cases h : q = p
    · simpa [FS.erase, h] using lookup_erase_self rest p
    · simpa [FS.erase, FS.lookup, h] using lookup_erase_self rest p

theorem lookup_erase_ne : ∀ (fs : FS) (p q : String), q ≠ p →
    FS.lookup (FS.erase fs p) q = FS.lookup fs q
  | [], _, _, _ => rfl
  | (r, v) :: rest, p, q, hqp => by
    by_cases h : r = p
    · subst h
      have hrq : ¬ r = q := fun e => hqp e.symm
      simpa [FS.erase, FS.lookup, hrq] using lookup_erase_ne rest r q hqp
    · by_cases hrq : r = q
      · simp [FS.erase, FS.lookup, h, hrq, hqp]
      · simpa [FS.erase, FS.lookup, h, hrq] using lookup_erase_ne rest p q hqp

theorem lookup_write_self (fs : FS) (p : String) (v : ℕ) :
    FS.lookup (FS.write fs p v) p = some v := by
  simp [FS.write, FS.lookup]

theorem lookup_write_ne (fs : FS) (p q : String) (v : ℕ) (h : q ≠ p) :
    FS.lookup (FS.write fs p v) q = FS.lookup fs q := by
  have hne : ¬ p = q := fun hpq => h hpq.symm
  simp [FS.write, FS.lookup, hne, lookup_erase_ne fs p q h]

theorem lookup_move_dst (fs : FS) (src dst : String) (c : ℕ)
    (h : FS.lookup fs src = some c) :
    FS.lookup (FS.move fs src dst) dst = some c := by
  simp [FS.move, h, lookup_write_self]

theorem lookup_move_other (fs : FS) (src dst q : String)
    (hqs : q ≠ src) (hqd : q ≠ dst) :
    FS.lookup (FS.move fs src dst) q = FS.lookup fs q := by
  unfold FS.move
  cases h : FS.lookup fs src with
  | none => rfl
  | some c =>
    rw [lookup_write_ne _ _ _ _ hqd, lookup_erase_ne _ _ _ hqs]

/-! Helper lemmas about the worker's paths. -/

theorem srcPath_ne_dstPath (cfg : JobConfig) (stem : String) :
    srcPath cfg stem ≠ dstPath cfg stem := by
  intro h
  have hlen := congrArg String.length h
  simp only [srcPath, dstPath, String.length_append] at hlen
  have h1 : (".png" : String).length = 4 := rfl
  have h2 : (".webp" : String).length = 5 := rfl
  rw [h1, h2] at hlen
  omega

/-! Helper lemmas about the resize transform. -/

theorem toNat_floor_le (w m : ℕ) (s : ℚ) (h : (w : ℚ) * s ≤ (m : ℚ)) :
    (⌊(w : ℚ) * s⌋).toNat ≤ m := by
  have h1 : ⌊(w : ℚ) * s⌋ ≤ (m : ℤ) := by
    have h2 := Int.floor_mono h
    simpa using h2
  exact Int.toNat_le.mpr h1

theorem clampScale_nonneg (w h maxW maxH : ℕ) : 0 ≤ clampScale w h maxW maxH := by
  unfold clampScale
  split_ifs <;> positivity

theorem clampScale_le_one (w h maxW maxH : ℕ) : clampScale w h maxW maxH ≤ 1 := by
  unfold clampScale
  split_ifs <;>
    first
      | exact le_refl _
      | exact min_le_left _ _
      | exact (min_le_left _ _).trans (min_le_left _ _)

theorem clampScale_le_w (w h maxW maxH : ℕ) (hc : maxW > 0 ∧ w > maxW) :
    clampScale w h maxW maxH ≤ (maxW : ℚ) / (w : ℚ) := by
  simp only [clampScale, if_pos hc]
  split_ifs
  · exact (min_le_left _ _).trans (min_le_right _ _)
  · exact min_le_right _ _

theorem clampScale_le_h (w h maxW maxH : ℕ) (hc : maxH > 0 ∧ h > maxH) :
    clampScale w h maxW maxH ≤ (maxH : ℚ) / (h : ℚ) := by
  simp only [clampScale, if_pos hc]
  exact min_le_right _ _

theorem apply_max_clamp_le (w h maxW maxH : ℕ) :
    (0 < maxW → (apply_max_clamp w h maxW maxH).1 ≤ maxW) ∧
    (0 < maxH → (apply_max_clamp w h maxW maxH).2 ≤ maxH) ∧
    (apply_max_clamp w h maxW maxH).1 ≤ w ∧ (apply_max_clamp w h maxW maxH).2 ≤ h := by
  unfold apply_max_clamp
  by_cases hb : maxW > 0 ∨ maxH > 0
  · rw [if_pos hb]
    by_cases hs : clampScale w h maxW maxH < 1
    · rw [if_pos hs]
      have h0 : 0 ≤ clampScale w h maxW maxH := clampScale_nonneg w h maxW maxH
      have h1 : clampScale w h maxW maxH ≤ 1 := clampScale_le_one w h maxW maxH
      have hww : (w : ℚ) * clampScale w h maxW maxH ≤ (w : ℚ) := by
        calc (w : ℚ) * clampScale w h maxW maxH ≤ (w : ℚ) * 1 :=
              mul_le_mul_of_nonneg_left h1 (by positivity)
          _ = (w : ℚ) := mul_one _
      have hhh : (h : ℚ) * clampScale w h maxW maxH ≤ (h : ℚ) := by
        calc (h : ℚ) * clampScale w h maxW maxH ≤ (h : ℚ) * 1 :=
              mul_le_mul_of_nonneg_left h1 (by positivity)
          _ = (h : ℚ) := mul_one _
      refine ⟨?_, ?_, ?_, ?_⟩
      · intro hmw
        by_cases hgt : w > maxW
        · apply toNat_floor_le
          have hw0 : (0 : ℚ) < (w : ℚ) := by
            have : 0 < w := lt_of_le_of_lt (Nat.zero_le maxW) hgt
            exact_mod_cast this
          calc (w : ℚ) * clampScale w h maxW maxH
              ≤ (w : ℚ) * ((maxW : ℚ) / (w : ℚ)) :=
                mul_le_mul_of_nonneg_left (clampScale_le_w w h maxW maxH ⟨hmw, hgt⟩)
                  (le_of_lt hw0)
            _ = (maxW : ℚ) := by field_simp
        · apply toNat_floor_le
          exact hww.trans (by exact_mod_cast le_of_not_lt hgt)
      · intro hmh
        by_cases hgt : h > maxH
        · apply toNat_floor_le
          have hh0 : (0 : ℚ) < (h : ℚ) := by
            have : 0 < h := lt_of_le_of_lt (Nat.zero_le maxH) hgt
            exact_mod_cast this
          calc (h : ℚ) * clampScale w h maxW maxH
              ≤ (h : ℚ) * ((maxH : ℚ) / (h : ℚ)) :=
                mul_le_mul_of_nonneg_left (clampScale_le_h w h maxW maxH ⟨hmh, hgt⟩)
                  (le_of_lt hh0)
            _ = (maxH : ℚ) := by field_simp
        · apply toNat_floor_le
          exact hhh.trans (by exact_mod_cast le_of_not_lt hgt)
      · exact toNat_floor_le w w _ hww
      · exact toNat_floor_le h h _ hhh
    · rw [if_neg hs]
      refine ⟨?_, ?_, le_refl _, le_refl _⟩
      · intro hmw
        by_contra hgt
        push_neg at hgt
        apply hs
        apply lt_of_le_of_lt (clampScale_le_w w h maxW maxH ⟨hmw, hgt⟩)
        rw [div_lt_one]
        · exact_mod_cast hgt
        · have : 0 < w := lt_of_le_of_lt (Nat.zero_le maxW) hgt
          exact_mod_cast this
      · intro hmh
        by_contra hgt
        push_neg at hgt
        apply hs
        apply lt_of_le_of_lt (clampScale_le_h w h maxW maxH ⟨hmh, hgt⟩)
        rw [div_lt_one]
        · exact_mod_cast hgt
        · have : 0 < h := lt_of_le_of_lt (Nat.zero_le maxH) hgt
          exact_mod_cast this
  · rw [if_neg hb]
    push_neg at hb
    exact ⟨fun hmw => absurd hmw (by omega), fun hmh => absurd hmh (by omega),
      le_refl _, le_refl _⟩

theorem apply_resize_eq_clamp_percent (w h pct maxW maxH : ℕ) :
    apply_resize w h pct maxW maxH =
      apply_max_clamp (apply_percent w h pct).1 (apply_percent w h pct).2 maxW maxH := rfl

/-! Helper lemmas about the fallible save pipeline. -/

theorem resizeE_ok (env : SaveEnv) (im : PILImage) (sz : ℕ × ℕ) (im' : PILImage)
    (h : resizeE env im sz = Except.ok im') : im' = im.resize sz := by
  unfold resizeE at h
  cases he : env.resizeErr im sz with
  | some msg => rw [he] at h; simp at h
  | none => rw [he] at h; simp at h; exact h.symm

theorem first_stepE_ok (env : SaveEnv) (img : PILImage) (pct : ℕ) (im : PILImage)
    (heq : (if pct ≠ 100 then
        resizeE env img (max 1 (img.width * pct / 100), max 1 (img.height * pct / 100))
      else Except.ok img) = Except.ok im) :
    im = img.resize (apply_percent img.width img.height pct) := by
  by_cases hp : pct ≠ 100
  · rw [if_pos hp] at heq
    have h2 := resizeE_ok env _ _ _ heq
    rw [h2]
    unfold apply_percent
    rw [if_pos hp]
  · rw [if_neg hp] at heq
    simp at heq
    rw [← heq]
    unfold apply_percent
    rw [if_neg hp]
    cases img
    rfl

theorem clamp_partE_ok (env : SaveEnv) (im im' : PILImage) (maxW maxH : ℕ)
    (h : (if maxW > 0 ∨ maxH > 0 then
            if clampScale im.width im.height maxW maxH < 1 then
              resizeE env im ((⌊(im.width : ℚ) * clampScale im.width im.height maxW maxH⌋).toNat,
                (⌊(im.height : ℚ) * clampScale im.width im.height maxW maxH⌋).toNat)
            else Except.ok im
          else Except.ok im) = Except.ok im') :
    im' = im.resize (apply_max_clamp im.width im.height maxW maxH) := by
  by_cases hb : maxW > 0 ∨ maxH > 0
  · rw [if_pos hb] at h
    by_cases hs : clampScale im.width im.height maxW maxH < 1
    · rw [if_pos hs] at h
      have h2 := resizeE_ok env _ _ _ h
      rw [h2]
      unfold apply_max_clamp
      rw [if_pos hb, if_pos hs]
    · rw [if_neg hs] at h
      simp at h
      rw [← h]
      unfold apply_max_clamp
      rw [if_pos hb, if_neg hs]
      cases im
      rfl
  · rw [if_neg hb] at h
    simp at h
    rw [← h]
    unfold apply_max_clamp
    rw [if_neg hb]
    cases im
    rfl

theorem apply_resizeE_ok (env : SaveEnv) (img : PILImage) (pct maxW maxH : ℕ) (im' : PILImage)
    (h : apply_resizeE env img pct maxW maxH = Except.ok im') :
    im' = apply_resize_img img pct maxW maxH := by
  unfold apply_resizeE at h
  split at h
  · simp at h
  · rename_i im heq
    have h1 := first_stepE_ok env img pct im heq
    subst h1
    have h2 := clamp_partE_ok env _ im' maxW maxH h
    rw [h2]
    show img.resize (apply_max_clamp (apply_percent img.width img.height pct).1
      (apply_percent img.width img.height pct).2 maxW maxH) = apply_resize_img img pct maxW maxH
    unfold apply_resize_img
    rw [apply_resize_eq_clamp_percent]

theorem save_one_prepared_ok (env : SaveEnv) (img : PILImage) (fmt : Fmt)
    (cfg : ExportSettings) (im' : PILImage)
    (h : save_one_prepared env img fmt cfg = Except.ok im') :
    im' = save_one_encoded img fmt cfg := by
  unfold save_one_prepared at h
  by_cases hd : (cfg.drop_alpha || fmt == Fmt.JPEG) = true
  · rw [if_pos hd] at h
    cases he : env.convertErr img ColorMode.RGB with
    | some msg => simp [convertE, he] at h
    | none =>
      simp only [convertE, he] at h
      have h2 := apply_resizeE_ok env (img.convert ColorMode.RGB) _ _ _ im' h
      rw [h2]
      unfold save_one_encoded
      rw [if_pos hd]
  · rw [if_neg hd] at h
    have h2 := apply_resizeE_ok env img _ _ _ im' h
    rw [h2]
    unfold save_one_encoded
    rw [if_neg hd]

theorem save_one_encoded_jpeg_mode (img : PILImage) (cfg : ExportSettings) :
    (save_one_encoded img Fmt.JPEG cfg).mode = ColorMode.RGB := by
  unfold save_one_encoded
  simp [apply_resize_img, PILImage.resize, PILImage.convert]

/-! Claim theorems. -/

/-- Claim C2: for every environment (capturing any possible exception at the
color-conversion, resize, encode or write step), image, format and settings,
`DeltaPix._save_one` always returns an outcome pair: `(true, "ok")` when the
pipeline succeeds, and `(false, msg)` carrying the original exception
message when any step raises; it never propagates the exception. -/
theorem c2_save_one_never_raises :
    ∀ (env : SaveEnv) (img : PILImage) (fmt : Fmt) (cfg : ExportSettings),
      (∃ u, save_one_pipeline env img fmt cfg = Except.ok u ∧
        save_one env img fmt cfg = (true, "ok")) ∨
      (∃ msg, save_one_pipeline env img fmt cfg = Except.error msg ∧
        save_one env img fmt cfg = (false, msg)) := by
  intro env img fmt cfg
  cases h : save_one_pipeline env img fmt cfg with
  | ok u => exact Or.inl ⟨u, rfl, by simp [save_one, h]⟩
  | error msg => exact Or.inr ⟨msg, rfl, by simp [save_one, h]⟩

/-- Claim C3: the resize transform applies the percentage step first and
then one uniform downscale-only clamp to the max bounds; in particular a
100×60 image with `resize_percent=50`, `max_width=40`, `max_height=0`
yields exactly 40×24. -/
theorem c3_percent_then_clamp :
    (∀ w h pct maxW maxH, apply_resize w h pct maxW maxH =
      apply_max_clamp (apply_percent w h pct).1 (apply_percent w h pct).2 maxW maxH) ∧
    apply_resize 100 60 50 40 0 = (40, 24) := by
  constructor
  · intro w h pct maxW maxH
    exact apply_resize_eq_clamp_percent w h pct maxW maxH
  · norm_num [apply_resize, clampScale]
    decide

/-- Claim C4: for width,height > 0 and percent in 1–100, the resize
transform never returns dimensions exceeding `max_width`/`max_height`
(when positive) and never returns dimensions larger than those produced by
the percentage step alone. -/
theorem c4_clamp_monotone (w h pct maxW maxH : ℕ) (hw : 0 < w) (hh : 0 < h)
    (hp1 : 1 ≤ pct) (hp2 : pct ≤ 100) :
    (0 < maxW → (apply_resize w h pct maxW maxH).1 ≤ maxW) ∧
    (0 < maxH → (apply_resize w h pct maxW maxH).2 ≤ maxH) ∧
    (apply_resize w h pct maxW maxH).1 ≤ (apply_percent w h pct).1 ∧
    (apply_resize w h pct maxW maxH).2 ≤ (apply_percent w h pct).2 := by
  rw [apply_resize_eq_clamp_percent]
  exact apply_max_clamp_le (apply_percent w h pct).1 (apply_percent w h pct).2 maxW maxH

/-- Witness for C4 at the concrete input 100×60, percent 50, max bounds
40×0. -/
theorem c4_clamp_monotone_witness :
    (0 < 40 → (apply_resize 100 60 50 40 0).1 ≤ 40) ∧
    (0 < 0 → (apply_resize 100 60 50 40 0).2 ≤ 0) ∧
    (apply_resize 100 60 50 40 0).1 ≤ (apply_percent 100 60 50).1 ∧
    (apply_resize 100 60 50 40 0).2 ≤ (apply_percent 100 60 50).2 :=
  c4_clamp_monotone 100 60 50 40 0 (by decide) (by decide) (by decide) (by decide)

/-- Claim C5: pixel data handed to the JPEG encoder never carries an alpha
channel: whenever `DeltaPix._save_one`'s pre-encode steps succeed for JPEG,
the image passed to `im.save` has mode RGB regardless of `drop_alpha`; the
standalone PNG→JPG tool likewise always converts to RGB before saving. -/
theorem c5_jpeg_never_alpha :
    (∀ (env : SaveEnv) (img : PILImage) (cfg : ExportSettings) (im' : PILImage),
      save_one_prepared env img Fmt.JPEG cfg = Except.ok im' →
      im'.mode = ColorMode.RGB ∧ im'.mode.hasAlpha = false) ∧
    (∀ (img : PILImage) (size : ℕ × ℕ) (q : ℕ),
      (resize_and_convert img size q).image.mode = ColorMode.RGB ∧
      ((resize_and_convert img size q).image.mode).hasAlpha = false) := by
  constructor
  · intro env img cfg im' h
    have h2 := save_one_prepared_ok env img Fmt.JPEG cfg im' h
    rw [h2, save_one_encoded_jpeg_mode]
    exact ⟨rfl, rfl⟩
  · intro img size q
    exact ⟨rfl, rfl⟩

/-- Witness for C5: a 2×2 RGBA image run through the JPEG pre-encode steps
with no failing PIL call. -/
theorem c5_jpeg_never_alpha_witness :
    PILImage.mode ⟨2, 2, ColorMode.RGB⟩ = ColorMode.RGB ∧
    ColorMode.hasAlpha (PILImage.mode ⟨2, 2, ColorMode.RGB⟩) = false :=
  c5_jpeg_never_alpha.1 okEnv rgbaImg pngJpegSettings ⟨2, 2, ColorMode.RGB⟩ rfl

/-- Counterexample to C7 as stated: with formats `{PNG, JPEG}` and a source
that fails to decode, `DeltaPix._export_batch` records exactly ONE error
entry (`"Open failed: …"`), not one Failed outcome per requested format. -/
theorem c7_counterexample :
    export_batch okEnv badDecode pngJpegSettings ["bad.png"] = ["Open failed: bad.png"] ∧
    pngJpegSettings.formats = [Fmt.PNG, Fmt.JPEG] ∧
    (export_batch okEnv badDecode pngJpegSettings ["bad.png"]).length ≠ 2 := by
  refine ⟨rfl, rfl, ?_⟩
  decide

/-- Claim C7 (amended): a source that fails to decode produces a single
failure entry covering the source as a whole — decode happens once per
source, before the per-format loop — and the batch continues with the
remaining sources. -/
theorem c7_decode_failure_single_entry :
    ∀ (env : SaveEnv) (decode : String → Option PILImage) (cfg : ExportSettings)
      (path : String) (rest : List String),
      decode path = none →
      export_batch env decode cfg (path :: rest) =
        ("Open failed: " ++ path) :: export_batch env decode cfg rest := by
  intro env decode cfg path rest h
  simp [export_batch, h]

/-- Witness for the amended C7: the corrupt `bad.png` contributes one entry
and the batch proceeds to `good.png`. -/
theorem c7_decode_failure_single_entry_witness :
    export_batch okEnv badDecode pngJpegSettings ["bad.png", "good.png"] =
      "Open failed: bad.png" :: export_batch okEnv badDecode pngJpegSettings ["good.png"] :=
  c7_decode_failure_single_entry okEnv badDecode pngJpegSettings ("bad.png") ["good.png"] rfl

/-- Claim C10: the standalone PNG→JPG tool's conversion, as invoked by its
`main` (default arguments), always produces an RGB image of exactly
1024×1024 at JPEG quality 90, regardless of the source's dimensions or
aspect ratio. -/
theorem c10_fixed_size_and_quality :
    ∀ img : PILImage, resize_and_convert_main img =
      { image := { width := 1024, height := 1024, mode := ColorMode.RGB }, quality := 90 } := by
  intro img
  rfl

/-- Claim C1: in in-place mode (per source item, not skipped): with
`keep_backup=False` the original is still at its original path after a
failed `_convert_one`, and is deleted only after a successful one (which
also wrote the output); with `keep_backup=True` a failed conversion leaves
the original's bytes at the backup path (fresh-backup case), and when the
backup already existed a failure leaves the filesystem untouched — the
original is never deleted from either location after a failure. -/
theorem c1_originals_survive_failure (cfg : JobConfig) (backupFolder : String)
    (convertFail : ℕ → Option String) (fs : FS) (stem : String) (i total c : ℕ)
    (hsrc : FS.lookup fs (srcPath cfg stem) = some c)
    (hskip : ¬(cfg.overwrite = false ∧ FS.pathExists fs (dstPath cfg stem) = true)) :
    (cfg.keep_backup = false →
      (∀ msg, convertFail c = some msg →
        FS.lookup (processItem cfg backupFolder convertFail fs stem i total).1
          (srcPath cfg stem) = some c) ∧
      (convertFail c = none →
        FS.lookup (processItem cfg backupFolder convertFail fs stem i total).1
            (srcPath cfg stem) = none ∧
        FS.lookup (processItem cfg backupFolder convertFail fs stem i total).1
            (dstPath cfg stem) = some (encodeWebp cfg.no_alpha c))) ∧
    (cfg.keep_backup = true → FS.pathExists fs (bakPath backupFolder stem) = false →
      ∀ msg, convertFail c = some msg →
        FS.lookup (processItem cfg backupFolder convertFail fs stem i total).1
          (bakPath backupFolder stem) = some c) ∧
    (cfg.keep_backup = true →
      ∀ cb, FS.lookup fs (bakPath backupFolder stem) = some cb →
        ∀ msg, convertFail cb = some msg →
          (processItem cfg backupFolder convertFail fs stem i total).1 = fs) := by
  refine ⟨?_, ?_, ?_⟩
  · intro hkb
    constructor
    · intro msg hmsg
      simp only [processItem, hkb, if_neg hskip]
      simp only [convertStep, hsrc, hmsg]
      exact hsrc
    · intro hnone
      simp only [processItem, hkb, if_neg hskip]
      simp only [convertStep, hsrc, hnone]
      have hfs1 : FS.lookup
          (FS.write fs (dstPath cfg stem) (encodeWebp cfg.no_alpha c))
          (srcPath cfg stem) = some c := by
        rw [lookup_write_ne _ _ _ _ (srcPath_ne_dstPath cfg stem)]
        exact hsrc
      have hcond : cfg.keep_backup = false ∧
          FS.pathExists (FS.write fs (dstPath cfg stem) (encodeWebp cfg.no_alpha c))
            (srcPath cfg stem) = true := by
        refine ⟨hkb, ?_⟩
        simp [FS.pathExists, hfs1]
      rw [if_pos hcond]
      constructor
      · exact lookup_erase_self _ _
      · show FS.lookup
            (FS.erase (FS.write fs (dstPath cfg stem) (encodeWebp cfg.no_alpha c))
              (srcPath cfg stem)) (dstPath cfg stem) = some (encodeWebp cfg.no_alpha c)
        rw [lookup_erase_ne _ _ _ (fun e => srcPath_ne_dstPath cfg stem e.symm)]
        exact lookup_write_self _ _ _
  · intro hkb hbak msg hmsg
    have hbak' : FS.pathExists fs (bakPath backupFolder stem) = true → False := by
      intro h; rw [hbak] at h; cases h
    simp only [processItem, hkb, if_neg hskip, if_neg hbak', hsrc]
    have hlk : FS.lookup (FS.move fs (srcPath cfg stem) (bakPath backupFolder stem))
        (bakPath backupFolder stem) = some c :=
      lookup_move_dst fs _ _ c hsrc
    simp only [convertStep, hlk, hmsg]
    exact hlk
  · intro hkb cb hcb msg hmsg
    have hbakT : FS.pathExists fs (bakPath backupFolder stem) = true := by
      simp [FS.pathExists, hcb]
    simp only [processItem, hkb, if_neg hskip, if_pos hbakT]
    simp only [convertStep, hcb, hmsg]
    rfl

/-- Witness for C1: `keep_backup=False`, failing encode — `f/a.png` is
still present with its original contents. -/
theorem c1_originals_survive_failure_witness :
    FS.lookup (processItem cfgNoBackup ("f_PNG") failBoom fsA ("a") 1 1).1
      (srcPath cfgNoBackup ("a")) = some 7 :=
  ((c1_originals_survive_failure cfgNoBackup ("f_PNG") failBoom fsA ("a") 1 1 7
      (by decide) (by decide)).1 rfl).1 ("boom") rfl

/-- Claim C6: with `overwrite=False` and the output already present, the
item is skipped: the worker emits exactly the skip log line and one
progress update, leaves the filesystem untouched, continues with the
remaining items, and performs no `Image.open` on the source. -/
theorem c6_skip_without_decode (cfg : JobConfig) (backupFolder : String)
    (convertFail : ℕ → Option String) (stopped : ℕ → Bool) (total : ℕ)
    (fs : FS) (stem : String) (rest : List String) (i conv : ℕ)
    (hstop : stopped i = false)
    (hover : cfg.overwrite = false)
    (hdst : FS.pathExists fs (dstPath cfg stem) = true) :
    runLoop cfg backupFolder convertFail stopped total fs (stem :: rest) i conv =
      ((runLoop cfg backupFolder convertFail stopped total fs rest (i + 1) conv).1,
       Event.log ("Skip (already exists): " ++ stem ++ ".webp") ::
         Event.progress (i * 100 / total) ::
         (runLoop cfg backupFolder convertFail stopped total fs rest (i + 1) conv).2.1,
       (runLoop cfg backupFolder convertFail stopped total fs rest (i + 1) conv).2.2) ∧
    (∀ p, Event.decodeOpen p ∉ (processItem cfg backupFolder convertFail fs stem i total).2.1) := by
  have hskip : cfg.overwrite = false ∧ FS.pathExists fs (dstPath cfg stem) = true :=
    ⟨hover, hdst⟩
  have hpi : processItem cfg backupFolder convertFail fs stem i total =
      (fs, [Event.log ("Skip (already exists): " ++ stem ++ ".webp"),
            Event.progress (i * 100 / total)], false) := by
    simp only [processItem, if_pos hskip]
  constructor
  · simp only [runLoop]
    rw [hstop]
    simp [hpi]
  · intro p
    rw [hpi]
    simp

/-- Witness for C6 at a concrete one-item folder with `a.webp` present. -/
theorem c6_skip_without_decode_witness :
    runLoop cfgSkip ("f_PNG") noFail stopNever 1 fsAWebp ["a"] 1 0 =
      ((runLoop cfgSkip ("f_PNG") noFail stopNever 1 fsAWebp [] 2 0).1,
       Event.log ("Skip (already exists): " ++ "a" ++ ".webp") ::
         Event.progress (1 * 100 / 1) ::
         (runLoop cfgSkip ("f_PNG") noFail stopNever 1 fsAWebp [] 2 0).2.1,
       (runLoop cfgSkip ("f_PNG") noFail stopNever 1 fsAWebp [] 2 0).2.2) :=
  (c6_skip_without_decode cfgSkip ("f_PNG") noFail stopNever 1 fsAWebp ("a") [] 1 0
    rfl rfl (by decide)).1

/-- Claim C9: with `keep_backup=True` and a file of the same name already
in the backup folder, the source is not moved (its entry is untouched),
and the conversion reads its input from the pre-existing backup file: the
`Image.open` hits the backup path and, on success, the output is encoded
from the backup's contents. -/
theorem c9_preexisting_backup_wins (cfg : JobConfig) (backupFolder : String)
    (convertFail : ℕ → Option String) (fs : FS) (stem : String) (i total cb : ℕ)
    (hkb : cfg.keep_backup = true)
    (hcb : FS.lookup fs (bakPath backupFolder stem) = some cb)
    (hskip : ¬(cfg.overwrite = false ∧ FS.pathExists fs (dstPath cfg stem) = true)) :
    FS.lookup (processItem cfg backupFolder convertFail fs stem i total).1
        (srcPath cfg stem) = FS.lookup fs (srcPath cfg stem) ∧
    Event.decodeOpen (bakPath backupFolder stem) ∈
      (processItem cfg backupFolder convertFail fs stem i total).2.1 ∧
    (convertFail cb = none →
      FS.lookup (processItem cfg backupFolder convertFail fs stem i total).1
        (dstPath cfg stem) = some (encodeWebp cfg.no_alpha cb)) := by
  have hbakT : FS.pathExists fs (bakPath backupFolder stem) = true := by
    simp [FS.pathExists, hcb]
  simp only [processItem, hkb, if_neg hskip, if_pos hbakT]
  simp only [convertStep, hcb]
  cases hcf : convertFail cb with
  | some msg =>
    simp only [hcf]
    refine ⟨rfl, by simp, fun hn => ?_⟩
    exact absurd hn (by simp)
  | none =>
    simp only [hcf]
    have hcond : ¬(cfg.keep_backup = false ∧
        FS.pathExists (FS.write fs (dstPath cfg stem) (encodeWebp cfg.no_alpha cb))
          (srcPath cfg stem) = true) := by
      rw [hkb]
      rintro ⟨h1, _⟩
      exact Bool.noConfusion h1
    rw [if_neg hcond]
    exact ⟨lookup_write_ne _ _ _ _ (srcPath_ne_dstPath cfg stem), by simp,
      fun _ => lookup_write_self _ _ _⟩

/-- Witness for C9: backup `f_PNG/a.png` already exists, the source entry
for `f/a.png` is untouched. -/
theorem c9_preexisting_backup_wins_witness :
    FS.lookup (processItem cfgBackup ("f_PNG") noFail fsABak ("a") 1 1).1
        (srcPath cfgBackup ("a")) = FS.lookup fsABak (srcPath cfgBackup ("a")) :=
  (c9_preexisting_backup_wins cfgBackup ("f_PNG") noFail fsABak ("a") 1 1 5
    rfl (by decide) (by decide)).1

/-! Helper lemmas for the cancellation claim. -/

theorem convertStep_one_progress (cfg : JobConfig) (fs : FS)
    (srcForConvert src dst stem : String) (convertFail : ℕ → Option String) (i total : ℕ) :
    ((convertStep cfg fs srcForConvert src dst stem convertFail i total).2.1).countP
      isProgress = 1 := by
  unfold convertStep
  cases h : FS.lookup fs srcForConvert with
  | none => rfl
  | some c =>
    cases h2 : convertFail c with
    | some msg => simp only [h2]; rfl
    | none => simp only [h2]; rfl

theorem processItem_one_progress (cfg : JobConfig) (backupFolder : String)
    (convertFail : ℕ → Option String) (fs : FS) (stem : String) (i total : ℕ) :
    ((processItem cfg backupFolder convertFail fs stem i total).2.1).countP isProgress = 1 := by
  unfold processItem
  by_cases h1 : cfg.overwrite = false ∧ FS.pathExists fs (dstPath cfg stem) = true
  · rw [if_pos h1]
    rfl
  · rw [if_neg h1]
    by_cases h2 : cfg.keep_backup = true
    · rw [if_pos h2]
      by_cases h3 : FS.pathExists fs (bakPath backupFolder stem) = true
      · rw [if_pos h3]
        exact convertStep_one_progress cfg fs _ _ _ stem convertFail i total
      · rw [if_neg h3]
        cases h4 : FS.lookup fs (srcPath cfg stem) with
        | none => rfl
        | some c =>
          exact convertStep_one_progress cfg _ _ _ _ stem convertFail i total
    · rw [if_neg h2]
      exact convertStep_one_progress cfg fs _ _ _ stem convertFail i total

theorem runLoop_stopped_count (cfg : JobConfig) (backupFolder : String)
    (convertFail : ℕ → Option String) (stopped : ℕ → Bool) (total k : ℕ)
    (hmono : ∀ i j, i ≤ j → stopped i = true → stopped j = true)
    (hk : stopped k = true) :
    ∀ (stems : List String) (fs : FS) (i conv : ℕ),
      ((runLoop cfg backupFolder convertFail stopped total fs stems i conv).2.1).countP
        isProgress ≤ k - i
  | [], fs, i, conv => by simp [runLoop]
  | stem :: rest, fs, i, conv => by
    by_cases hs : stopped i = true
    · simp only [runLoop, if_pos hs]
      simp [isProgress]
    · have hik : i < k := by
        by_contra hge
        push_neg at hge
        exact hs (hmono k i hge hk)
      simp only [runLoop, if_neg hs]
      have ih := runLoop_stopped_count cfg backupFolder convertFail stopped total k hmono hk
        rest (processItem cfg backupFolder convertFail fs stem i total).1 (i + 1)
        (conv + if (processItem cfg backupFolder convertFail fs stem i total).2.2 then 1 else 0)
      have hone := processItem_one_progress cfg backupFolder convertFail fs stem i total
      rw [List.countP_append, hone]
      omega

theorem runWorker_ends_done (cfg : JobConfig) (backupFolder : String)
    (convertFail : ℕ → Option String) (stopped : ℕ → Bool) (fs : FS) (stems : List String) :
    endsWithDone (runWorker cfg backupFolder convertFail stopped fs stems).2 = true := by
  unfold runWorker
  by_cases h : stems.length = 0
  · rw [if_pos h]
    rfl
  · rw [if_neg h]
    simp only [endsWithDone, List.getLast?_append]
    rfl

/-- Claim C8: once the stop flag is observed set at the check before item
`k`, at most `k - 1` items are iterated (each iterated item emits exactly
one progress event and runs to completion before the next check), and the
`done` signal carrying the converted count is still emitted as the final
event. -/
theorem c8_stop_checked_before_each_item (cfg : JobConfig) (backupFolder : String)
    (convertFail : ℕ → Option String) (stopped : ℕ → Bool) (fs : FS)
    (stems : List String) (k : ℕ)
    (hmono : ∀ i j, i ≤ j → stopped i = true → stopped j = true)
    (hk : stopped k = true) :
    ((runWorker cfg backupFolder convertFail stopped fs stems).2).countP isProgress ≤ k - 1 ∧
    endsWithDone (runWorker cfg backupFolder convertFail stopped fs stems).2 = true := by
  constructor
  · unfold runWorker
    by_cases h : stems.length = 0
    · rw [if_pos h]
      simp [isProgress]
    · rw [if_neg h]
      have hloop := runLoop_stopped_count cfg backupFolder convertFail stopped
        stems.length k hmono hk stems fs 1 0
      have hhdr : ((if cfg.keep_backup then
          [Event.log ("Backup folder: " ++ backupFolder)] else []) : List Event).countP
            isProgress = 0 := by
        by_cases hb : cfg.keep_backup <;> simp [hb, isProgress]
      simp only [List.countP_append, List.countP_cons, hhdr, isProgress]
      simp [hloop]
  · exact runWorker_ends_done cfg backupFolder convertFail stopped fs stems

/-- Witness for C8: three items, flag set from the check before item 2. -/
theorem c8_stop_checked_before_each_item_witness :
    ((runWorker cfgNoBackup ("f_PNG") noFail stopFromTwo fsA ["a", "b", "c"]).2).countP
      isProgress ≤ 2 - 1 ∧
    endsWithDone (runWorker cfgNoBackup ("f_PNG") noFail stopFromTwo fsA ["a", "b", "c"]).2
      = true :=
  c8_stop_checked_before_each_item cfgNoBackup ("f_PNG") noFail stopFromTwo fsA
    ["a", "b", "c"] 2
    (fun i j hij hi => by
      simp only [stopFromTwo, decide_eq_true_eq] at hi ⊢
      omega)
    (by decide)
